import Mathlib

/-!
Verification development for the SNiPER profiling service
(src/SniperUtil/SniperProfiling/src/SniperProfiling.cc).

The C++ source is shallowly embedded: std::string becomes List Char,
std::map becomes an association list, double accumulators become ℚ
(exact arithmetic standing for the ideal real semantics the spec
describes), and the handler/lifecycle code becomes explicit state
passing.  Undefined behaviour reached by the source (null-pointer
dereference) is modelled as an explicit crash outcome.
-/

set_option maxHeartbeats 1000000

/-- Cpp std::string is modelled as a list of characters. -/
abbrev CppStr := List Char

/-- Cpp std::string::npos for a 64-bit size_t. -/
def NPOS : Nat := 2 ^ 64 - 1

/-- Index of the first occurrence of a character in a list, if any
(auxiliary for modelling std::string::find). -/
def strFindAux (c : Char) : CppStr → Option Nat
  | [] => none
  | a :: rest => if a = c then some 0 else (strFindAux c rest).map (· + 1)

/-- Model of std::string::find(char): index of the first occurrence,
or NPOS when the character is absent. -/
def strFind (s : CppStr) (c : Char) : Nat :=
  match strFindAux c s with
  | some i => i
  | none => NPOS

/-- Model of std::string::substr(pos, count): up to count characters
starting at pos.  (The source only calls it with pos ≤ size.) -/
def substrCpp (s : CppStr) (pos count : Nat) : CppStr :=
  (s.drop pos).take count

/-- Key extraction performed by SniperProfiling::initialize, source line 143:
idtf.substr(idtf.find(slash) + 1, idtf.size()).  The + 1 is size_t
arithmetic, so NPOS + 1 wraps around to 0 modulo 2 ^ 64. -/
def extractKey (idtf : CppStr) : CppStr :=
  substrCpp idtf ((strFind idtf '/' + 1) % 2 ^ 64) idtf.length

/-- Spec reading for claim C2: the substring after the LAST slash of the
identifier (defined from the words of the spec, for comparison with
extractKey, which is translated from the source). -/
def afterLastSlash (s : CppStr) : CppStr :=
  match strFindAux '/' s.reverse with
  | some j => s.drop (s.length - j)
  | none => s

/-- Substring after the FIRST slash, or the whole string when there is no
slash (the behaviour the source actually implements). -/
def afterFirstSlash (s : CppStr) : CppStr :=
  match strFindAux '/' s with
  | some i => s.drop (i + 1)
  | none => s

theorem strFindAux_eq_none (c : Char) (s : CppStr) (h : c ∉ s) :
    strFindAux c s = none := by
  induction s with
  | nil => rfl
  | cons a rest ih =>
    have ha : ¬ a = c := fun e => h (e ▸ List.mem_cons_self a rest)
    have hr : c ∉ rest := fun m => h (List.mem_cons_of_mem a m)
    simp [strFindAux, ha, ih hr]

theorem strFindAux_lt_length (c : Char) (s : CppStr) (i : Nat)
    (h : strFindAux c s = some i) : i < s.length := by
  induction s generalizing i with
  | nil => simp [strFindAux] at h
  | cons a rest ih =>
    by_cases ha : a = c
    · simp [strFindAux, ha] at h
      simp only [List.length_cons]
      omega
    · simp [strFindAux, ha] at h
      obtain ⟨j, hj, hji⟩ := h
      have := ih j hj
      simp only [List.length_cons]
      omega

theorem extractKey_of_none (s : CppStr) (h : strFindAux '/' s = none) :
    extractKey s = s := by
  have hmod : (NPOS + 1) % 2 ^ 64 = 0 := by
    norm_num [NPOS]
  unfold extractKey strFind
  rw [h]
  show substrCpp s ((NPOS + 1) % 2 ^ 64) s.length = s
  rw [hmod]
  simp [substrCpp]

theorem extractKey_of_some (s : CppStr) (i : Nat)
    (h : strFindAux '/' s = some i) (hlen : s.length < 2 ^ 64) :
    extractKey s = s.drop (i + 1) := by
  have hi : i < s.length := strFindAux_lt_length _ _ _ h
  have hmod : (i + 1) % 2 ^ 64 = i + 1 := Nat.mod_eq_of_lt (by omega)
  unfold extractKey strFind
  rw [h]
  unfold substrCpp
  rw [hmod]
  exact List.take_of_length_le (by simp)

/-- C2 (counterexample): for the identifier a/b/c the source extracts b/c
(everything after the FIRST slash), not c (the segment after the last
slash) as the claim states. -/
theorem extractKey_not_last_slash_cex :
    extractKey ("a/b/c".data) = "b/c".data ∧
    afterLastSlash ("a/b/c".data) = "c".data ∧
    extractKey ("a/b/c".data) ≠ afterLastSlash ("a/b/c".data) := by
  refine ⟨by decide, by decide, by decide⟩

/-- C2 (amended): activation extracts as the algorithm key the substring
after the FIRST slash of the identifier (std::string::find returns the
first occurrence); for an identifier with a single slash this coincides
with the claim, but with several slashes everything after the first one
becomes the key. -/
theorem extractKey_after_first_slash (s : CppStr) (hlen : s.length < 2 ^ 64) :
    extractKey s = afterFirstSlash s := by
  cases hf : strFindAux '/' s with
  | none =>
    rw [extractKey_of_none s hf]
    unfold afterFirstSlash
    rw [hf]
  | some i =>
    rw [extractKey_of_some s i hf hlen]
    unfold afterFirstSlash
    rw [hf]

/-- C2 (witness): the amended statement evaluated on the concrete
identifier ns/sub/AlgA. -/
theorem extractKey_after_first_slash_witness :
    ("ns/sub/AlgA".data).length < 2 ^ 64 ∧
    extractKey ("ns/sub/AlgA".data) = afterFirstSlash ("ns/sub/AlgA".data) :=
  ⟨by decide, extractKey_after_first_slash ("ns/sub/AlgA".data) (by decide)⟩

/-- C9 (confirmed): for an identifier containing no slash, find returns
NPOS, NPOS + 1 wraps to 0, and substr(0, size) yields the whole
identifier unchanged as the algorithm key. -/
theorem extractKey_no_slash_id (s : CppStr) (h : '/' ∉ s) :
    extractKey s = s :=
  extractKey_of_none s (strFindAux_eq_none _ _ h)

/-- C9 (witness): a concrete slash-free identifier is its own key. -/
theorem extractKey_no_slash_id_witness :
    '/' ∉ ("TestAlg".data) ∧ extractKey ("TestAlg".data) = "TestAlg".data :=
  ⟨by decide, extractKey_no_slash_id ("TestAlg".data) (by decide)⟩

/-- Timer usage / contract errors (spec section 7). -/
inductive TimerErr where
  | alreadyRunning
  | notRunning
deriving DecidableEq

/-- Modelled from the spec: SniperTimer (SniperKernel, not under src/).
State per section 3 of the spec: running flag, start timestamp, and the
accumulators count, sum and sum of squares, plus the last elapsed value
returned by stop() and read back by elapsed().  Durations are modelled
as exact rationals standing for the ideal real-number semantics. -/
structure SniperTimer where
  tname : CppStr
  running : Bool
  startT : ℚ
  nMeas : Nat
  sumT : ℚ
  sumSq : ℚ
  lastElapsed : ℚ
deriving DecidableEq

/-- A freshly constructed timer (new SniperTimer(name)). -/
def freshTimer (n : CppStr) : SniperTimer :=
  ⟨n, false, 0, 0, 0, 0, 0⟩

/-- Modelled from the spec: start() records a start timestamp and fails
with AlreadyRunningError when already running, without overwriting any
state. -/
def SniperTimer.startE (now : ℚ) (t : SniperTimer) : Except TimerErr SniperTimer :=
  if t.running then .error .alreadyRunning
  else .ok { t with running := true, startT := now }

/-- Modelled from the spec: stop() computes elapsed = now minus the start
timestamp, updates count, sum and sum of squares, clears the running
flag, and fails with NotRunningError when not running (no state change
in that case). -/
def SniperTimer.stopE (now : ℚ) (t : SniperTimer) : Except TimerErr SniperTimer :=
  if t.running then
    .ok { t with running := false,
                 nMeas := t.nMeas + 1,
                 sumT := t.sumT + (now - t.startT),
                 sumSq := t.sumSq + (now - t.startT) * (now - t.startT),
                 lastElapsed := now - t.startT }
  else .error .notRunning

/-- The source handlers call start() discarding the result, so a failed
start leaves the timer unchanged. -/
def SniperTimer.startU (now : ℚ) (t : SniperTimer) : SniperTimer :=
  match t.startE now with
  | .ok t2 => t2
  | .error _ => t

/-- The source handlers call stop() discarding the result, so a failed
stop leaves the timer unchanged. -/
def SniperTimer.stopU (now : ℚ) (t : SniperTimer) : SniperTimer :=
  match t.stopE now with
  | .ok t2 => t2
  | .error _ => t

/-- Modelled from the spec: count accessor (named as in the source call
sites: number_of_measurements). -/
def SniperTimer.number_of_measurements (t : SniperTimer) : Nat := t.nMeas

/-- Modelled from the spec: mean() = sum / count, and 0 when count = 0. -/
def SniperTimer.mean (t : SniperTimer) : ℚ :=
  if t.nMeas = 0 then 0 else t.sumT / (t.nMeas : ℚ)

/-- The radicand of rms(): sum of squares / count, and 0 when count = 0. -/
def SniperTimer.rmsSqVal (t : SniperTimer) : ℚ :=
  if t.nMeas = 0 then 0 else t.sumSq / (t.nMeas : ℚ)

/-- Modelled from the spec: rms() = sqrt(sum of squares / count), and 0
when count = 0. -/
noncomputable def SniperTimer.rms (t : SniperTimer) : ℝ :=
  Real.sqrt ((t.rmsSqVal : ℚ) : ℝ)

/-- Modelled from the spec: elapsed() returns the duration of the last
completed start/stop pair. -/
def SniperTimer.elapsed (t : SniperTimer) : ℚ := t.lastElapsed

/-- One matched start/stop pair: start at p.1, stop at p.2. -/
def stepPair (t : SniperTimer) (p : ℚ × ℚ) : SniperTimer :=
  SniperTimer.stopU p.2 (SniperTimer.startU p.1 t)

/-- A fresh timer driven through a sequence of matched start/stop pairs. -/
def runPairs (ps : List (ℚ × ℚ)) : SniperTimer :=
  ps.foldl stepPair (freshTimer ("t".data))

theorem stepPair_eq (t : SniperTimer) (p : ℚ × ℚ) (h : t.running = false) :
    stepPair t p =
      { t with running := false,
               startT := p.1,
               nMeas := t.nMeas + 1,
               sumT := t.sumT + (p.2 - p.1),
               sumSq := t.sumSq + (p.2 - p.1) * (p.2 - p.1),
               lastElapsed := p.2 - p.1 } := by
  simp [stepPair, SniperTimer.startU, SniperTimer.stopU, SniperTimer.startE,
        SniperTimer.stopE, h]

theorem runPairsAux (ps : List (ℚ × ℚ)) (t : SniperTimer) (h : t.running = false) :
    (ps.foldl stepPair t).nMeas = t.nMeas + ps.length ∧
    (ps.foldl stepPair t).sumT = t.sumT + (ps.map (fun p => p.2 - p.1)).sum ∧
    (ps.foldl stepPair t).sumSq
      = t.sumSq + (ps.map (fun p => (p.2 - p.1) * (p.2 - p.1))).sum ∧
    (ps.foldl stepPair t).running = false := by
  induction ps generalizing t with
  | nil => simp [h]
  | cons p rest ih =>
    have hrun : (stepPair t p).running = false := by rw [stepPair_eq t p h]
    obtain ⟨h1, h2, h3, h4⟩ := ih (stepPair t p) hrun
    refine ⟨?_, ?_, ?_, by simpa using h4⟩
    · simp only [List.foldl_cons]
      rw [h1, stepPair_eq t p h]
      simp only [List.length_cons]
      omega
    · simp only [List.foldl_cons]
      rw [h2, stepPair_eq t p h]
      simp only [List.map_cons, List.sum_cons]
      ring
    · simp only [List.foldl_cons]
      rw [h3, stepPair_eq t p h]
      simp only [List.map_cons, List.sum_cons]
      ring

/-- C6 (confirmed): for every sequence of N matched start/stop pairs with
elapsed durations e_i, the accessors give count = N, mean = (sum of e_i)/N
and rms = sqrt((sum of the e_i squared)/N); and count = 0 forces mean = 0
and rms = 0 (no division by zero). -/
theorem sniperTimer_stats (ps : List (ℚ × ℚ)) :
    (runPairs ps).number_of_measurements = ps.length ∧
    (runPairs ps).mean = (ps.map (fun p => p.2 - p.1)).sum / (ps.length : ℚ) ∧
    (runPairs ps).rms
      = Real.sqrt
          (((ps.map (fun p => (p.2 - p.1) * (p.2 - p.1))).sum / (ps.length : ℚ) : ℚ) : ℝ) ∧
    ((runPairs ps).number_of_measurements = 0 →
      (runPairs ps).mean = 0 ∧ (runPairs ps).rms = 0) := by
  obtain ⟨h1, h2, h3, _⟩ := runPairsAux ps (freshTimer ("t".data)) rfl
  have hc : (runPairs ps).nMeas = ps.length := by
    rw [runPairs, h1]
    simp [freshTimer]
  have hm : (runPairs ps).mean = (ps.map (fun p => p.2 - p.1)).sum / (ps.length : ℚ) := by
    rw [SniperTimer.mean, hc]
    by_cases hl : ps.length = 0
    · simp [hl]
    · rw [if_neg hl, runPairs, h2]
      simp [freshTimer]
  have hq : (runPairs ps).rmsSqVal
      = (ps.map (fun p => (p.2 - p.1) * (p.2 - p.1))).sum / (ps.length : ℚ) := by
    rw [SniperTimer.rmsSqVal, hc]
    by_cases hl : ps.length = 0
    · simp [hl]
    · rw [if_neg hl, runPairs, h3]
      simp [freshTimer]
  have hr : (runPairs ps).rms
      = Real.sqrt
          (((ps.map (fun p => (p.2 - p.1) * (p.2 - p.1))).sum / (ps.length : ℚ) : ℚ) : ℝ) := by
    rw [SniperTimer.rms, hq]
  refine ⟨hc, hm, hr, fun h0 => ?_⟩
  have hl : ps.length = 0 := by rw [← hc]; exact h0
  obtain rfl : ps = [] := List.length_eq_zero.mp hl
  constructor
  · rfl
  · simp [runPairs, SniperTimer.rms, SniperTimer.rmsSqVal, freshTimer]

/-- C6 (witness): the zero-measurement case evaluated concretely via the
theorem: a timer with no completed pair reports mean 0 and rms 0. -/
theorem sniperTimer_stats_witness :
    (runPairs []).number_of_measurements = 0 ∧
    ((runPairs []).mean = 0 ∧ (runPairs []).rms = 0) :=
  ⟨rfl, (sniperTimer_stats []).2.2.2 rfl⟩

/-- Payload of an algorithm-scoped incident: the algorithm object with its
objName accessor (AlgBase in the source). -/
structure AlgBase where
  objName : CppStr
deriving DecidableEq

/-- An incident delivered to a handler.  Constructor alg models an
incident whose dynamic type is Incident_T of an AlgBase pointer; plain
models every other incident, for which the dynamic_cast performed by the
algorithm handlers yields a null pointer. -/
inductive Incident where
  | plain (iname : CppStr)
  | alg (iname : CppStr) (payload : AlgBase)
deriving DecidableEq

/-- The member m_algTimer : std::map from key to SniperTimer pointer.
Pointers are heap indices; the value none models a null pointer (the
value std::map operator[] default-constructs for an absent key).  The
source never iterates this map for output, so the association list order
is irrelevant. -/
abbrev TimerMap := List (CppStr × Option Nat)

/-- Lookup in m_algTimer without insertion (std::map::find). -/
def mapLookup : TimerMap → CppStr → Option (Option Nat)
  | [], _ => none
  | (k2, v) :: rest, k => if k2 = k then some v else mapLookup rest k

/-- Model of std::map operator[] in a read position: yields the stored
pointer, inserting a default-constructed (null) entry for an absent key. -/
def mapIndexRead (m : TimerMap) (k : CppStr) : TimerMap × Option Nat :=
  match mapLookup m k with
  | some v => (m, v)
  | none => (m ++ [(k, none)], none)

/-- Model of the assignment m[k] = ptr: overwrite when present, insert
otherwise. -/
def mapAssign : TimerMap → CppStr → Option Nat → TimerMap
  | [], k, v => [(k, v)]
  | (k2, v2) :: rest, k, v =>
    if k2 = k then (k2, v) :: rest else (k2, v2) :: mapAssign rest k v

/-- Read a heap-allocated timer through its pointer. -/
def heapGet (h : List SniperTimer) (i : Nat) : SniperTimer :=
  h.getD i (freshTimer [])

/-- Update a heap-allocated timer in place. -/
def heapSet (h : List SniperTimer) (i : Nat) (t : SniperTimer) : List SniperTimer :=
  h.set i t

/-- The state owned by the SniperProfiling service: the parent task name
(used in the summary row), m_algName (report order), m_algTimer, the
heap of allocated timers, and m_evtTimer. -/
structure SPState where
  taskName : CppStr
  algNames : List CppStr
  algMap : TimerMap
  heap : List SniperTimer
  evtTimer : SniperTimer
deriving DecidableEq

/-- Outcome of one handler invocation: a normal return carrying the
boolean handler result, or a crash (undefined behaviour through a null
pointer) with the state as of the crash point. -/
inductive HandleResult where
  | ok (st : SPState) (ret : Bool)
  | crash (st : SPState)
deriving DecidableEq

/-- The boolean returned by a handler invocation that returns. -/
def HandleResult.retOf : HandleResult → Option Bool
  | .ok _ b => some b
  | .crash _ => none

/-- BeginEvtHandler::handle (source lines 48 to 53): start the event
timer, return true.  The incident is not inspected. -/
def beginEvtHandle (now : ℚ) (st : SPState) (_inc : Incident) : HandleResult :=
  .ok { st with evtTimer := SniperTimer.startU now st.evtTimer } true

/-- EndEvtHandler::handle (source lines 68 to 75): stop the event timer,
emit a debug line, return true. -/
def endEvtHandle (now : ℚ) (st : SPState) (_inc : Incident) : HandleResult :=
  .ok { st with evtTimer := SniperTimer.stopU now st.evtTimer } true

/-- BeginAlgHandler::handle (source lines 91 to 101): dynamic_cast the
incident (null on a payload type mismatch, and the immediate payload()
call on that null pointer is a crash), read the algorithm name, index
m_algTimer with it (inserting a null entry for an unknown key) and call
start() through the stored pointer (a crash when it is null). -/
def beginAlgHandle (now : ℚ) (st : SPState) (inc : Incident) : HandleResult :=
  match inc with
  | .plain _ => .crash st
  | .alg _ payload =>
    match mapIndexRead st.algMap payload.objName with
    | (m2, none) => .crash { st with algMap := m2 }
    | (m2, some tid) =>
      .ok { st with algMap := m2,
                    heap := heapSet st.heap tid
                      (SniperTimer.startU now (heapGet st.heap tid)) } true

/-- EndAlgHandler::handle (source lines 116 to 128): same resolution as
BeginAlgHandler, then stop() and a debug line, returning true. -/
def endAlgHandle (now : ℚ) (st : SPState) (inc : Incident) : HandleResult :=
  match inc with
  | .plain _ => .crash st
  | .alg _ payload =>
    match mapIndexRead st.algMap payload.objName with
    | (m2, none) => .crash { st with algMap := m2 }
    | (m2, some tid) =>
      .ok { st with algMap := m2,
                    heap := heapSet st.heap tid
                      (SniperTimer.stopU now (heapGet st.heap tid)) } true

/-- The four handlers registered by the service. -/
inductive HandlerKind where
  | beginEvt
  | endEvt
  | beginAlg
  | endAlg
deriving DecidableEq

/-- Dispatch one notification to the corresponding handler. -/
def dispatchHandle : HandlerKind → ℚ → SPState → Incident → HandleResult
  | .beginEvt, now, st, inc => beginEvtHandle now st inc
  | .endEvt, now, st, inc => endEvtHandle now st inc
  | .beginAlg, now, st, inc => beginAlgHandle now st inc
  | .endAlg, now, st, inc => endAlgHandle now st inc

/-- The service state before any configuration entry is processed. -/
def initState (tname : CppStr) : SPState :=
  ⟨tname, [], [], [], freshTimer ("evtTimer".data)⟩

/-- One iteration of the configuration loop in SniperProfiling::initialize
(source lines 140 to 146): extract the key, append it to m_algName, and
assign a freshly allocated timer to m_algTimer[key], overwriting any
pointer previously stored for that key. -/
def buildStep (st : SPState) (idtf : CppStr) : SPState :=
  { st with algNames := st.algNames ++ [extractKey idtf],
            algMap := mapAssign st.algMap (extractKey idtf) (some st.heap.length),
            heap := st.heap ++ [freshTimer (extractKey idtf)] }

/-- The registry-building phase of SniperProfiling::initialize. -/
def buildRegistry (tname : CppStr) (idtfs : List CppStr) : SPState :=
  idtfs.foldl buildStep (initState tname)

/-- Concrete session for claim C1: one configured algorithm, trackFit. -/
def c1State : SPState :=
  buildRegistry ("MyTask".data) [("ns/trackFit".data)]

/-- C1 (code diverges from the claim): a BeginAlg notification naming the
identifier Z, never placed in the registry, does not fail with an
UnknownAlgorithmError; instead std::map operator[] creates a brand-new
registry entry holding a null pointer for Z, and the handler then calls
start() through that null pointer, which is undefined behaviour
(modelled as a crash).  Before the call Z is absent; at the crash point
the map contains a new entry for Z mapped to null. -/
theorem beginAlg_unknown_key_entry_and_crash :
    mapLookup c1State.algMap ("Z".data) = none ∧
    dispatchHandle .beginAlg 0 c1State (Incident.alg ("BeginAlg".data) ⟨"Z".data⟩)
      = .crash { c1State with algMap := c1State.algMap ++ [(("Z".data), none)] } ∧
    mapLookup (c1State.algMap ++ [(("Z".data), none)]) ("Z".data) = some none :=
  ⟨by decide, by decide, by decide⟩

/-- Concrete session for claim C3, identical in content to the C1 session
but owned by this claim. -/
def c3State : SPState :=
  buildRegistry ("MyTask".data) [("ns/trackFit".data)]

/-- C3 (code diverges from the claim): a BeginAlg or EndAlg notification
whose payload is not an Incident_T of an AlgBase pointer does not fail
with a PayloadTypeMismatchError; the dynamic_cast yields a null pointer
and the immediate payload() call on it is undefined behaviour (modelled
as a crash).  The crash state equals the input state, so no timer state
is modified, but no error value is ever signalled to the caller. -/
theorem algHandlers_bad_payload_crash :
    dispatchHandle .beginAlg 0 c3State (Incident.plain ("BeginAlg".data)) = .crash c3State ∧
    dispatchHandle .endAlg 0 c3State (Incident.plain ("EndAlg".data)) = .crash c3State :=
  ⟨by decide, by decide⟩

theorem dispatch_retOf (k : HandlerKind) (now : ℚ) (st : SPState) (inc : Incident) :
    (dispatchHandle k now st inc).retOf = none ∨
    (dispatchHandle k now st inc).retOf = some true := by
  cases k with
  | beginEvt => right; rfl
  | endEvt => right; rfl
  | beginAlg =>
    cases inc with
    | plain n => left; rfl
    | alg n p =>
      simp only [dispatchHandle, beginAlgHandle]
      rcases hm : mapIndexRead st.algMap p.objName with ⟨m2, ptr⟩
      cases ptr <;> simp [HandleResult.retOf]
  | endAlg =>
    cases inc with
    | plain n => left; rfl
    | alg n p =>
      simp only [dispatchHandle, endAlgHandle]
      rcases hm : mapIndexRead st.algMap p.objName with ⟨m2, ptr⟩
      cases ptr <;> simp [HandleResult.retOf]

/-- C10 (confirmed): whenever any of the four handlers returns (rather
than crashing), it returns true; no condition observable inside a
handler is ever reported as a failure through the boolean result. -/
theorem handlers_return_true (k : HandlerKind) (now : ℚ) (st : SPState)
    (inc : Incident) (b : Bool)
    (h : (dispatchHandle k now st inc).retOf = some b) : b = true := by
  rcases dispatch_retOf k now st inc with h0 | h0 <;> rw [h0] at h
  · exact absurd h (by simp)
  · exact (Option.some.inj h).symm

/-- Concrete session for the C10 witness. -/
def c10State : SPState :=
  buildRegistry ("T10".data) []

/-- The boolean actually returned in the C10 witness scenario. -/
def c10Ret : Bool :=
  ((dispatchHandle .beginEvt 0 c10State (Incident.plain ("BeginEvent".data))).retOf).getD false

/-- C10 (witness): the BeginEvent handler invoked on a concrete state
returns, and the returned boolean is true. -/
theorem handlers_return_true_witness :
    (dispatchHandle .beginEvt 0 c10State (Incident.plain ("BeginEvent".data))).retOf
      = some c10Ret ∧ c10Ret = true :=
  ⟨by decide,
   handlers_return_true .beginEvt 0 c10State (Incident.plain ("BeginEvent".data)) c10Ret
     (by decide)⟩

theorem mapLookup_assign_self (m : TimerMap) (k : CppStr) (v : Option Nat) :
    mapLookup (mapAssign m k v) k = some v := by
  induction m with
  | nil => simp [mapAssign, mapLookup]
  | cons p rest ih =>
    rcases p with ⟨k2, v2⟩
    by_cases h : k2 = k
    · simp [mapAssign, mapLookup, h]
    · simp [mapAssign, mapLookup, h, ih]

theorem mapLookup_assign_ne (m : TimerMap) (k k2 : CppStr) (v : Option Nat)
    (h : k ≠ k2) : mapLookup (mapAssign m k v) k2 = mapLookup m k2 := by
  induction m with
  | nil => simp [mapAssign, mapLookup, h]
  | cons p rest ih =>
    rcases p with ⟨k3, v3⟩
    simp only [mapAssign]
    by_cases h3 : k3 = k
    · subst h3
      rw [if_pos rfl]
      simp [mapLookup, h]
    · rw [if_neg h3]
      simp only [mapLookup]
      by_cases h4 : k3 = k2
      · rw [if_pos h4, if_pos h4]
      · rw [if_neg h4, if_neg h4]
        exact ih

/-- C4 (amended): processing one more configuration entry always appends
its key to the report-order list m_algName (so a duplicated key appears
once per occurrence), always allocates a fresh Timer, and rebinds the
key in m_algTimer to that fresh Timer (index equal to the old heap
size), replacing any Timer previously bound to the same key rather than
reusing it. -/
theorem buildRegistry_append (tname : CppStr) (idtfs : List CppStr) (idtf : CppStr) :
    (buildRegistry tname (idtfs ++ [idtf])).algNames
      = (buildRegistry tname idtfs).algNames ++ [extractKey idtf] ∧
    mapLookup (buildRegistry tname (idtfs ++ [idtf])).algMap (extractKey idtf)
      = some (some (buildRegistry tname idtfs).heap.length) ∧
    (buildRegistry tname (idtfs ++ [idtf])).heap.length
      = (buildRegistry tname idtfs).heap.length + 1 := by
  unfold buildRegistry
  rw [List.foldl_append]
  simp only [List.foldl_cons, List.foldl_nil]
  refine ⟨rfl, ?_, by simp [buildStep]⟩
  simp [buildStep, mapLookup_assign_self]

/-- Concrete session for the C4 counterexample: the same algorithm
configured twice. -/
def c4State : SPState :=
  buildRegistry ("T4".data) [("ns/A".data), ("ns/A".data)]

/-- C4 (counterexample): with the identifier ns/A configured twice, the
key A appears twice (not once) in the iteration/report order list, two
Timers are allocated, and the registry binds A to the second allocation
(index 1), not to the originally inserted Timer (index 0): the later
entry replaces the Timer instead of reusing it. -/
theorem buildRegistry_duplicate_cex :
    c4State.algNames = [("A".data), ("A".data)] ∧
    c4State.algNames.count ("A".data) = 2 ∧
    ¬ c4State.algNames.count ("A".data) = 1 ∧
    c4State.heap.length = 2 ∧
    mapLookup c4State.algMap ("A".data) = some (some 1) ∧
    ¬ mapLookup c4State.algMap ("A".data) = some (some 0) :=
  ⟨by decide, by decide, by decide, by decide, by decide, by decide⟩

/-- Activation-time configuration errors (spec section 7). -/
inductive ConfigErr where
  | missingField
  | malformed
deriving DecidableEq

/-- An activation failure: a configuration error, or a failure while
creating/registering the handler subscribed to the given notification
name. -/
inductive InitErr where
  | configFailure (e : ConfigErr)
  | registFailure (n : CppStr)
deriving DecidableEq

/-- Notification name for the begin-event handler. -/
def beginEventName : CppStr := "BeginEvent".data

/-- Notification name for the end-event handler. -/
def endEventName : CppStr := "EndEvent".data

/-- Notification name for the begin-algorithm handler. -/
def beginAlgName : CppStr := "BeginAlg".data

/-- Notification name for the end-algorithm handler. -/
def endAlgName : CppStr := "EndAlg".data

/-- The four notification names in the order the source registers them. -/
def handlerNotifNames : List CppStr :=
  [beginEventName, endEventName, beginAlgName, endAlgName]

/-- SniperProfiling::initialize (source lines 130 to 171).  Modelled from
the spec where the collaborators are outside src/: the configuration
read (SniperJSON) either yields the ordered identifier list or fails
with a ConfigurationError, and handler creation/registration
(IIncidentHandler::regist) may fail, per the spec hypothesis of a
failure while creating or registering a handler; registOk injects those
failures.  The body in the source is straight-line with no try/catch
and no cleanup, so an error propagates with every previously registered
handler still registered; the error value carries the registered set at
propagation time. -/
def initSvc (tname : CppStr) (cfg : Except ConfigErr (List CppStr))
    (registOk : CppStr → Bool) : Except (InitErr × List CppStr) SPState :=
  match cfg with
  | .error e => .error (.configFailure e, [])
  | .ok idtfs =>
    if registOk beginEventName then
      if registOk endEventName then
        if registOk beginAlgName then
          if registOk endAlgName then .ok (buildRegistry tname idtfs)
          else .error (.registFailure endAlgName,
                       [beginEventName, endEventName, beginAlgName])
        else .error (.registFailure beginAlgName, [beginEventName, endEventName])
      else .error (.registFailure endEventName, [beginEventName])
    else .error (.registFailure beginEventName, [])

/-- Failure injection for the C8 counterexample: registering the EndAlg
handler (the fourth and last registration) fails. -/
def c8RegistOk : CppStr → Bool := fun n => ! (n == endAlgName)

/-- C8 (counterexample): when the failure occurs while registering the
fourth handler, activation propagates the error with the three
previously registered handlers still registered: the registered set at
propagation is nonempty, refuting the claim that anything already
registered is unregistered before the error is propagated. -/
theorem initSvc_partial_registration_cex :
    initSvc ("T8".data) (Except.ok [("ns/A".data)]) c8RegistOk
      = .error (.registFailure endAlgName,
                [beginEventName, endEventName, beginAlgName]) ∧
    ([beginEventName, endEventName, beginAlgName] : List CppStr) ≠ [] :=
  ⟨by rfl, by decide⟩

/-- C8 (amended): a configuration failure happens before any registration
and leaves nothing registered; but a failure while creating or
registering a handler propagates with all earlier handlers still
registered (the source performs no unregistration on any error path).
Precisely, the registered set carried by an activation error is the
longest prefix of the four notification names accepted by registOk, and
is empty exactly when the configuration read failed or the very first
registration failed. -/
theorem initSvc_registered_on_error (tname : CppStr)
    (cfg : Except ConfigErr (List CppStr)) (registOk : CppStr → Bool)
    (e : InitErr) (regs : List CppStr)
    (h : initSvc tname cfg registOk = .error (e, regs)) :
    regs = match cfg with
      | .error _ => []
      | .ok _ => handlerNotifNames.takeWhile registOk := by
  cases cfg with
  | error ce =>
    simp only [initSvc, Except.error.injEq, Prod.mk.injEq] at h
    exact h.2.symm
  | ok idtfs =>
    show regs = handlerNotifNames.takeWhile registOk
    simp only [initSvc] at h
    by_cases h1 : registOk beginEventName
    · rw [if_pos h1] at h
      by_cases h2 : registOk endEventName
      · rw [if_pos h2] at h
        by_cases h3 : registOk beginAlgName
        · rw [if_pos h3] at h
          by_cases h4 : registOk endAlgName
          · rw [if_pos h4] at h
            exact absurd h (by simp)
          · rw [if_neg h4] at h
            simp only [Except.error.injEq, Prod.mk.injEq] at h
            rw [← h.2]
            simp [handlerNotifNames, List.takeWhile, h1, h2, h3, h4]
        · rw [if_neg h3] at h
          simp only [Except.error.injEq, Prod.mk.injEq] at h
          rw [← h.2]
          simp [handlerNotifNames, List.takeWhile, h1, h2, h3]
      · rw [if_neg h2] at h
        simp only [Except.error.injEq, Prod.mk.injEq] at h
        rw [← h.2]
        simp [handlerNotifNames, List.takeWhile, h1, h2]
    · rw [if_neg h1] at h
      simp only [Except.error.injEq, Prod.mk.injEq] at h
      rw [← h.2]
      simp [handlerNotifNames, List.takeWhile, h1]

/-- C8 (witness): the amended statement evaluated on a concrete failing
configuration read; the registered set at propagation is empty. -/
theorem initSvc_registered_on_error_witness :
    initSvc ("T8w".data) (Except.error ConfigErr.missingField) (fun _ => true)
      = .error (InitErr.configFailure ConfigErr.missingField, ([] : List CppStr)) ∧
    ([] : List CppStr) = ([] : List CppStr) :=
  ⟨rfl,
   initSvc_registered_on_error ("T8w".data) (Except.error ConfigErr.missingField)
     (fun _ => true) (InitErr.configFailure ConfigErr.missingField) [] rfl⟩

/-- One data row of the final report: identifier, count, total, mean, rms
(source lines 205 to 210). -/
structure AlgRow where
  rname : CppStr
  rcount : Nat
  rtotal : ℚ
  rmean : ℚ
  rrms : ℝ

/-- A printed line of the final report. -/
inductive ReportLine where
  | banner
  | header
  | algRow (r : AlgRow)
  | sumRow (label : CppStr) (cnt : Nat) (total : ℚ) (avg : ℚ) (root : ℝ)

/-- An observable action of SniperProfiling::finalize: unregistering a
handler, taking or releasing the shared log lock, printing one report
line to the log stream, or the trailing LogInfo line. -/
inductive LogAction where
  | unregistA (n : CppStr)
  | lockA
  | outputA (l : ReportLine)
  | unlockA
  | infoA

/-- Whether an action is a report output line. -/
def LogAction.isOutput : LogAction → Bool
  | .outputA _ => true
  | _ => false

/-- The report row printed for one timer: name, count, count times mean
(the total), mean, rms, exactly as in source lines 205 to 210. -/
noncomputable def algRowOf (t : SniperTimer) (n : CppStr) : AlgRow :=
  ⟨n, t.number_of_measurements, (t.number_of_measurements : ℚ) * t.mean, t.mean, t.rms⟩

/-- The timer a report row reads for a given key (resolution used to
express the report content; the faithful rendering is renderRows). -/
def timerOf (st : SPState) (n : CppStr) : SniperTimer :=
  match mapLookup st.algMap n with
  | some (some tid) => heapGet st.heap tid
  | _ => freshTimer []

/-- Render the per-algorithm rows by iterating m_algName in order
(source lines 203 to 211).  For each name the source reads m_algTimer[it]
and dereferences the stored pointer; a missing or null entry is a
null-pointer dereference, modelled as the rendering crashing (none). -/
noncomputable def renderRows (st : SPState) : List CppStr → Option (List AlgRow)
  | [] => some []
  | n :: rest =>
    match mapLookup st.algMap n with
    | some (some tid) =>
      (renderRows st rest).map (fun rs => algRowOf (heapGet st.heap tid) n :: rs)
    | _ => none

/-- SniperProfiling::finalize (source lines 173 to 230): unregister the
four handlers, take the shared log lock, print the opening banner, the
header, one row per m_algName entry, the event-timer summary row
(labelled with the parent task name), the closing banner, release the
lock; the trailing LogInfo line follows.  The result is none when the
row rendering would dereference a null pointer (unreachable from a real
activation). -/
noncomputable def finalizeSvc (st : SPState) : Option (List LogAction) :=
  match renderRows st st.algNames with
  | none => none
  | some rows =>
    some ([LogAction.unregistA beginEventName, LogAction.unregistA endEventName,
           LogAction.unregistA beginAlgName, LogAction.unregistA endAlgName]
      ++ [LogAction.lockA]
      ++ [LogAction.outputA ReportLine.banner, LogAction.outputA ReportLine.header]
      ++ rows.map (fun r => LogAction.outputA (ReportLine.algRow r))
      ++ [LogAction.outputA (ReportLine.sumRow st.taskName
            st.evtTimer.number_of_measurements
            ((st.evtTimer.number_of_measurements : ℚ) * st.evtTimer.mean)
            st.evtTimer.mean st.evtTimer.rms),
          LogAction.outputA ReportLine.banner]
      ++ [LogAction.unlockA]
      ++ [LogAction.infoA])

/-- Run a sequence of timed notifications through the dispatched
handlers; none when a handler crashed the process. -/
def runNotifs : List (HandlerKind × ℚ × Incident) → SPState → Option SPState
  | [], st => some st
  | (k, now, inc) :: rest, st =>
    match dispatchHandle k now st inc with
    | .ok st2 _ => runNotifs rest st2
    | .crash _ => none

/-- An algorithm name resolvable to a valid (non-null, in-bounds) timer. -/
def TimerOk (st : SPState) (n : CppStr) : Prop :=
  ∃ tid, mapLookup st.algMap n = some (some tid) ∧ tid < st.heap.length

theorem mapIndexRead_some (m : TimerMap) (k : CppStr) (m2 : TimerMap) (tid : Nat)
    (h : mapIndexRead m k = (m2, some tid)) :
    m2 = m ∧ mapLookup m k = some (some tid) := by
  unfold mapIndexRead at h
  cases hl : mapLookup m k with
  | none =>
    rw [hl] at h
    simp at h
  | some v =>
    rw [hl] at h
    simp only [Prod.mk.injEq] at h
    refine ⟨h.1.symm, ?_⟩
    rw [h.2]

theorem dispatch_ok_fields (k : HandlerKind) (now : ℚ) (st : SPState)
    (inc : Incident) (st2 : SPState) (b : Bool)
    (h : dispatchHandle k now st inc = .ok st2 b) :
    st2.taskName = st.taskName ∧ st2.algNames = st.algNames ∧
    st2.algMap = st.algMap ∧ st2.heap.length = st.heap.length := by
  cases k with
  | beginEvt =>
    simp only [dispatchHandle, beginEvtHandle, HandleResult.ok.injEq] at h
    rw [← h.1]
    exact ⟨rfl, rfl, rfl, rfl⟩
  | endEvt =>
    simp only [dispatchHandle, endEvtHandle, HandleResult.ok.injEq] at h
    rw [← h.1]
    exact ⟨rfl, rfl, rfl, rfl⟩
  | beginAlg =>
    cases inc with
    | plain n => simp [dispatchHandle, beginAlgHandle] at h
    | alg n p =>
      simp only [dispatchHandle, beginAlgHandle] at h
      rcases hm : mapIndexRead st.algMap p.objName with ⟨m2, ptr⟩
      rw [hm] at h
      cases ptr with
      | none => simp at h
      | some tid =>
        simp only [HandleResult.ok.injEq] at h
        obtain ⟨hm2, _⟩ := mapIndexRead_some _ _ _ _ hm
        rw [← h.1]
        exact ⟨rfl, rfl, hm2, by simp [heapSet]⟩
  | endAlg =>
    cases inc with
    | plain n => simp [dispatchHandle, endAlgHandle] at h
    | alg n p =>
      simp only [dispatchHandle, endAlgHandle] at h
      rcases hm : mapIndexRead st.algMap p.objName with ⟨m2, ptr⟩
      rw [hm] at h
      cases ptr with
      | none => simp at h
      | some tid =>
        simp only [HandleResult.ok.injEq] at h
        obtain ⟨hm2, _⟩ := mapIndexRead_some _ _ _ _ hm
        rw [← h.1]
        exact ⟨rfl, rfl, hm2, by simp [heapSet]⟩

theorem runNotifs_fields (ns : List (HandlerKind × ℚ × Incident))
    (st st2 : SPState) (h : runNotifs ns st = some st2) :
    st2.taskName = st.taskName ∧ st2.algNames = st.algNames ∧
    st2.algMap = st.algMap ∧ st2.heap.length = st.heap.length := by
  induction ns generalizing st with
  | nil =>
    obtain rfl : st = st2 := Option.some.inj h
    exact ⟨rfl, rfl, rfl, rfl⟩
  | cons x rest ih =>
    rcases x with ⟨k, now, inc⟩
    simp only [runNotifs] at h
    cases hd : dispatchHandle k now st inc with
    | ok stm b =>
      rw [hd] at h
      have h2 : runNotifs rest stm = some st2 := h
      obtain ⟨a1, a2, a3, a4⟩ := ih stm h2
      obtain ⟨b1, b2, b3, b4⟩ := dispatch_ok_fields k now st inc stm b hd
      exact ⟨a1.trans b1, a2.trans b2, a3.trans b3, a4.trans b4⟩
    | crash stm =>
      rw [hd] at h
      exact absurd h (by simp)

theorem buildStep_wf (st : SPState) (idtf : CppStr)
    (h : ∀ n ∈ st.algNames, TimerOk st n) :
    ∀ n ∈ (buildStep st idtf).algNames, TimerOk (buildStep st idtf) n := by
  intro n hn
  simp only [buildStep, List.mem_append, List.mem_singleton] at hn
  rcases hn with hn | rfl
  · obtain ⟨tid, hl, hb⟩ := h n hn
    by_cases he : n = extractKey idtf
    · subst he
      exact ⟨st.heap.length, by simp [buildStep, mapLookup_assign_self],
             by simp [buildStep]⟩
    · exact ⟨tid, by
        simp only [buildStep]
        rw [mapLookup_assign_ne _ _ _ _ (fun e => he e.symm)]
        exact hl,
        by simp only [buildStep, List.length_append]; omega⟩
  · exact ⟨st.heap.length, by simp [buildStep, mapLookup_assign_self],
           by simp [buildStep]⟩

theorem foldl_buildStep_wf (idtfs : List CppStr) (st : SPState)
    (h : ∀ n ∈ st.algNames, TimerOk st n) :
    ∀ n ∈ (idtfs.foldl buildStep st).algNames, TimerOk (idtfs.foldl buildStep st) n := by
  induction idtfs generalizing st with
  | nil => simpa using h
  | cons idtf rest ih =>
    simp only [List.foldl_cons]
    exact ih (buildStep st idtf) (buildStep_wf st idtf h)

theorem buildRegistry_wf (tname : CppStr) (idtfs : List CppStr) :
    ∀ n ∈ (buildRegistry tname idtfs).algNames, TimerOk (buildRegistry tname idtfs) n :=
  foldl_buildStep_wf idtfs (initState tname) (by simp [initState])

theorem foldl_buildStep_algNames (idtfs : List CppStr) (st : SPState) :
    (idtfs.foldl buildStep st).algNames = st.algNames ++ idtfs.map extractKey := by
  induction idtfs generalizing st with
  | nil => simp
  | cons idtf rest ih =>
    simp only [List.foldl_cons, List.map_cons]
    rw [ih]
    simp [buildStep]

theorem foldl_buildStep_taskName (idtfs : List CppStr) (st : SPState) :
    (idtfs.foldl buildStep st).taskName = st.taskName := by
  induction idtfs generalizing st with
  | nil => rfl
  | cons idtf rest ih =>
    simp only [List.foldl_cons]
    rw [ih]
    rfl

theorem renderRows_of_wf (st : SPState) (names : List CppStr)
    (h : ∀ n ∈ names, TimerOk st n) :
    renderRows st names = some (names.map (fun n => algRowOf (timerOf st n) n)) := by
  induction names with
  | nil => rfl
  | cons n rest ih =>
    obtain ⟨tid, hl, _⟩ := h n (List.mem_cons_self n rest)
    simp only [renderRows]
    rw [hl, ih (fun m hm => h m (List.mem_cons_of_mem n hm))]
    simp [timerOf, hl]

theorem initSvc_ok (tname : CppStr) (idtfs : List CppStr)
    (registOk : CppStr → Bool) (st0 : SPState)
    (h : initSvc tname (Except.ok idtfs) registOk = Except.ok st0) :
    st0 = buildRegistry tname idtfs := by
  simp only [initSvc] at h
  by_cases h1 : registOk beginEventName
  · rw [if_pos h1] at h
    by_cases h2 : registOk endEventName
    · rw [if_pos h2] at h
      by_cases h3 : registOk beginAlgName
      · rw [if_pos h3] at h
        by_cases h4 : registOk endAlgName
        · rw [if_pos h4] at h
          exact (Except.ok.inj h).symm
        · rw [if_neg h4] at h
          exact absurd h (by simp)
      · rw [if_neg h3] at h
        exact absurd h (by simp)
    · rw [if_neg h2] at h
      exact absurd h (by simp)
  · rw [if_neg h1] at h
    exact absurd h (by simp)

/-- C5 (amended): for every session and every completed notification
sequence, the report rendered at deactivation consists, under one
lock/unlock pair, of a banner, a header, one row per CONFIGURATION
ENTRY in registry build order (a key configured twice yields one
repeated row per occurrence) — each row showing the identifier, its
timer count, total computed as count times mean, mean and rms — followed
by a single summary row with the event timer count, total, mean and rms
labelled with the task name, and a closing banner; the row order
depends only on the configured list, never on the runtime arrival order
of the notifications. -/
theorem report_structure (tname : CppStr) (idtfs : List CppStr)
    (registOk : CppStr → Bool) (ns : List (HandlerKind × ℚ × Incident))
    (st0 st2 : SPState)
    (hinit : initSvc tname (Except.ok idtfs) registOk = Except.ok st0)
    (hrun : runNotifs ns st0 = some st2) :
    finalizeSvc st2
      = some ([LogAction.unregistA beginEventName, LogAction.unregistA endEventName,
               LogAction.unregistA beginAlgName, LogAction.unregistA endAlgName]
          ++ [LogAction.lockA]
          ++ [LogAction.outputA ReportLine.banner, LogAction.outputA ReportLine.header]
          ++ (idtfs.map extractKey).map
               (fun n => LogAction.outputA (ReportLine.algRow (algRowOf (timerOf st2 n) n)))
          ++ [LogAction.outputA (ReportLine.sumRow tname
                st2.evtTimer.number_of_measurements
                ((st2.evtTimer.number_of_measurements : ℚ) * st2.evtTimer.mean)
                st2.evtTimer.mean st2.evtTimer.rms),
              LogAction.outputA ReportLine.banner]
          ++ [LogAction.unlockA]
          ++ [LogAction.infoA]) := by
  obtain rfl : st0 = buildRegistry tname idtfs := initSvc_ok _ _ _ _ hinit
  obtain ⟨ht, hn, hm, hh⟩ := runNotifs_fields ns _ st2 hrun
  have hwf : ∀ n ∈ st2.algNames, TimerOk st2 n := by
    intro n hn2
    rw [hn] at hn2
    obtain ⟨tid, h1, h2⟩ := buildRegistry_wf tname idtfs n hn2
    exact ⟨tid, by rw [hm]; exact h1, by rw [hh]; exact h2⟩
  have hrender := renderRows_of_wf st2 st2.algNames hwf
  have hnames : st2.algNames = idtfs.map extractKey := by
    rw [hn]
    show (idtfs.foldl buildStep (initState tname)).algNames = _
    rw [foldl_buildStep_algNames]
    simp [initState]
  have htask : st2.taskName = tname := by
    rw [ht]
    show (idtfs.foldl buildStep (initState tname)).taskName = _
    rw [foldl_buildStep_taskName]
    rfl
  simp only [finalizeSvc]
  rw [hrender, hnames, htask]
  simp [List.map_map, Function.comp]

/-- Concrete session for the C5 counterexample: the same algorithm
configured twice. -/
def c5State : SPState :=
  buildRegistry ("T5".data) [("ns/A".data), ("ns/A".data)]

/-- C5 (counterexample): with ns/A configured twice, the rendered report
contains TWO rows naming the identifier A, refuting "exactly one row
per registered algorithm identifier". -/
theorem report_duplicate_rows_cex :
    (renderRows c5State c5State.algNames).map (fun rs => rs.map AlgRow.rname)
      = some [("A".data), ("A".data)] ∧
    (("A".data) :: ("A".data) :: ([] : List CppStr)).count ("A".data) = 2 ∧
    ¬ (("A".data) :: ("A".data) :: ([] : List CppStr)).count ("A".data) = 1 :=
  ⟨rfl, by decide, by decide⟩

/-- Concrete session for the C5 witness. -/
def c5wState : SPState :=
  buildRegistry ("T5w".data) [("ns/B".data)]

/-- C5 (witness): the amended statement evaluated on a session with one
configured algorithm and no notifications. -/
theorem report_structure_witness :
    initSvc ("T5w".data) (Except.ok [("ns/B".data)]) (fun _ => true)
      = Except.ok c5wState ∧
    runNotifs [] c5wState = some c5wState ∧
    finalizeSvc c5wState
      = some ([LogAction.unregistA beginEventName, LogAction.unregistA endEventName,
               LogAction.unregistA beginAlgName, LogAction.unregistA endAlgName]
          ++ [LogAction.lockA]
          ++ [LogAction.outputA ReportLine.banner, LogAction.outputA ReportLine.header]
          ++ (([("ns/B".data)] : List CppStr).map extractKey).map
               (fun n => LogAction.outputA (ReportLine.algRow (algRowOf (timerOf c5wState n) n)))
          ++ [LogAction.outputA (ReportLine.sumRow ("T5w".data)
                c5wState.evtTimer.number_of_measurements
                ((c5wState.evtTimer.number_of_measurements : ℚ) * c5wState.evtTimer.mean)
                c5wState.evtTimer.mean c5wState.evtTimer.rms),
              LogAction.outputA ReportLine.banner]
          ++ [LogAction.unlockA]
          ++ [LogAction.infoA]) :=
  ⟨rfl, rfl,
   report_structure ("T5w".data) [("ns/B".data)] (fun _ => true) [] c5wState c5wState
     rfl rfl⟩

/-- C7 (confirmed): on every completed run of finalize, the shared log
lock is taken exactly once, before any report output; every report
output line lies strictly between the lock and the unlock; the lock is
released exactly once, after the last report line, on the (single) exit
path.  (The source has no failing operation between lock and unlock:
stream insertion does not fail, so the error case contemplated by the
claim cannot arise.) -/
theorem finalize_lock_discipline (st : SPState) (tr : List LogAction)
    (h : finalizeSvc st = some tr) :
    ∃ pre mid post,
      tr = pre ++ [LogAction.lockA] ++ mid ++ [LogAction.unlockA] ++ post ∧
      (∀ a ∈ pre, a.isOutput = false) ∧
      (∀ a ∈ mid, a.isOutput = true) ∧
      (∀ a ∈ post, a.isOutput = false) ∧
      LogAction.lockA ∉ pre ∧ LogAction.lockA ∉ mid ∧ LogAction.lockA ∉ post ∧
      LogAction.unlockA ∉ pre ∧ LogAction.unlockA ∉ mid ∧ LogAction.unlockA ∉ post := by
  unfold finalizeSvc at h
  cases hr : renderRows st st.algNames with
  | none =>
    rw [hr] at h
    exact absurd h (by simp)
  | some rows =>
    rw [hr] at h
    have htr := (Option.some.inj h).symm
    subst htr
    refine ⟨[LogAction.unregistA beginEventName, LogAction.unregistA endEventName,
             LogAction.unregistA beginAlgName, LogAction.unregistA endAlgName],
            [LogAction.outputA ReportLine.banner, LogAction.outputA ReportLine.header]
              ++ rows.map (fun r => LogAction.outputA (ReportLine.algRow r))
              ++ [LogAction.outputA (ReportLine.sumRow st.taskName
                    st.evtTimer.number_of_measurements
                    ((st.evtTimer.number_of_measurements : ℚ) * st.evtTimer.mean)
                    st.evtTimer.mean st.evtTimer.rms),
                  LogAction.outputA ReportLine.banner],
            [LogAction.infoA], ?_, ?_, ?_, ?_, ?_, ?_, ?_, ?_, ?_, ?_⟩
    · simp [List.append_assoc]
    · intro a ha
      simp only [List.mem_cons, List.not_mem_nil, or_false] at ha
      rcases ha with rfl | rfl | rfl | rfl <;> rfl
    · intro a ha
      simp only [List.mem_append, List.mem_cons, List.mem_map,
                 List.not_mem_nil, or_false] at ha
      rcases ha with ((rfl | rfl) | ⟨r, _, rfl⟩) | (rfl | rfl) <;> rfl
    · intro a ha
      simp only [List.mem_cons, List.not_mem_nil, or_false] at ha
      rw [ha]
      rfl
    · simp
    · simp [List.mem_append, List.mem_map]
    · simp
    · simp
    · simp [List.mem_append, List.mem_map]
    · simp

/-- Concrete session for the C7 witness: no configured algorithms. -/
def c7State : SPState :=
  buildRegistry ("T7".data) []

/-- The trace finalize produces on the C7 witness session. -/
noncomputable def c7Trace : List LogAction :=
  [LogAction.unregistA beginEventName, LogAction.unregistA endEventName,
   LogAction.unregistA beginAlgName, LogAction.unregistA endAlgName,
   LogAction.lockA,
   LogAction.outputA ReportLine.banner, LogAction.outputA ReportLine.header,
   LogAction.outputA (ReportLine.sumRow c7State.taskName
     c7State.evtTimer.number_of_measurements
     ((c7State.evtTimer.number_of_measurements : ℚ) * c7State.evtTimer.mean)
     c7State.evtTimer.mean c7State.evtTimer.rms),
   LogAction.outputA ReportLine.banner,
   LogAction.unlockA, LogAction.infoA]

/-- C7 (witness): the lock discipline evaluated on a concrete finalize
trace. -/
theorem finalize_lock_discipline_witness :
    finalizeSvc c7State = some c7Trace ∧
    (∃ pre mid post,
      c7Trace = pre ++ [LogAction.lockA] ++ mid ++ [LogAction.unlockA] ++ post ∧
      (∀ a ∈ pre, a.isOutput = false) ∧
      (∀ a ∈ mid, a.isOutput = true) ∧
      (∀ a ∈ post, a.isOutput = false) ∧
      LogAction.lockA ∉ pre ∧ LogAction.lockA ∉ mid ∧ LogAction.lockA ∉ post ∧
      LogAction.unlockA ∉ pre ∧ LogAction.unlockA ∉ mid ∧ LogAction.unlockA ∉ post) :=
  ⟨rfl, finalize_lock_discipline c7State c7Trace rfl⟩
